import Mathlib

/-!
Verification of the rewrite engine of git-rebase-extract-file.

The Go source under internal/rebase/rebase.go is shallowly embedded here.
Pure functions (path matching, commit classification, message generation)
become Lean functions on List Char backed strings. The effectful parts
(Extract, performRebase, splitCommitUsingInteractiveRebase,
splitCurrentCommit) become trace-producing functions: every external git
invocation or printed line is an Event, the outcomes of external commands
(exit statuses, captured stdout) are oracle inputs packaged in World
structures, and each function returns the ordered list of Events it emits
together with its Except result, mirroring the Go control flow branch by
branch.
-/

namespace GitRebaseExtractFile

/-- Byte-wise list prefix test, the semantics of Go strings.HasPrefix
on the character lists underlying our strings. -/
def listIsPre : List Char → List Char → Bool
  | [], _ => true
  | _ :: _, [] => false
  | a :: as, b :: bs => a == b && listIsPre as bs

/-- Go strings.HasPrefix: does s start with p. -/
def strStartsWith (s p : String) : Bool :=
  listIsPre p.data s.data

/-- Go strings.HasSuffix: does s end with suf. -/
def strEndsWith (s suf : String) : Bool :=
  listIsPre suf.data.reverse s.data.reverse

/-- Go strings.TrimSpace: drop leading and trailing whitespace. -/
def goTrimSpace (s : String) : String :=
  ⟨((s.data.dropWhile Char.isWhitespace).reverse.dropWhile Char.isWhitespace).reverse⟩

/-- Go s[:n] on a short hash: take the first n characters. -/
def goTake (s : String) (n : Nat) : String :=
  ⟨s.data.take n⟩

/-- rebase.go isTargetFile: a file matches when it is equal to some
pattern, or some pattern ends with the directory separator and is a
prefix of the file path. The analyzer field targetFiles is passed
explicitly. -/
def isTargetFile (targetFiles : List String) (file : String) : Bool :=
  targetFiles.any fun target =>
    file == target || (strEndsWith target "/" && strStartsWith file target)

/-- rebase.go CommitInfo. -/
structure CommitInfo where
  hash : String
  message : String
  author : String
  files : List String
  needsSplit : Bool
  deriving DecidableEq

/-- The flag-gathering loop of analyzeCommit (lines 90-99): one pass over
the changed files accumulating (hasTargetFile, hasOtherFiles). -/
def splitFlags (targetFiles : List String) (files : List String) : Bool × Bool :=
  files.foldl
    (fun acc file =>
      if isTargetFile targetFiles file then (true, acc.2) else (acc.1, true))
    (false, false)

/-- rebase.go analyzeCommit, pure core: the raw git outputs for message and
author arrive as oracle strings and are trimmed exactly as in the source;
NeedsSplit is hasTargetFile && hasOtherFiles. -/
def analyzeCommit (targetFiles : List String) (hash rawMsg rawAuthor : String)
    (files : List String) : CommitInfo :=
  let flags := splitFlags targetFiles files
  ⟨hash, goTrimSpace rawMsg, goTrimSpace rawAuthor, files, flags.1 && flags.2⟩

/-- rebase.go GenerateSplitMessages: derive the retained and extracted
messages from the original message and the target file list. -/
def GenerateSplitMessages (original : String) (targetFiles : List String) :
    String × String :=
  let firstMsg :=
    if targetFiles.length == 1 then
      -- targetFiles[0], guarded by the length check
      original ++ "\n\nChanges to " ++ targetFiles.headD "" ++
        " split into a separate commit"
    else
      original ++ "\n\nChanges to target files split into a separate commit"
  let secondMsg :=
    if targetFiles.length == 1 then
      targetFiles.headD "" ++ ": " ++ original
    else
      "target files: " ++ original
  (firstMsg, secondMsg)

/-- One observable step of the Extractor: a git command issued against the
repository or a line printed to the user. Print events are not mutations;
everything else is. -/
inductive Event where
  | printRecovery (head : String)
  | printNothingToDo
  | printConflictWarning (paths : List String)
  | createBackupBranch (name : String)
  | runRebaseSession (fromRev : String) (sequence : List String)
  | gitResetMixed
  | gitAddAll
  | gitResetPath (path : String)
  | gitCommit (msg author : String)
  | gitAdd (path : String)
  | gitAddForce (path : String)
  | rebaseAbort
  | rebaseContinue
  | printFailureRecovery (head : String)
  | printSuccessRecovery (head : String)
  deriving DecidableEq

/-- Classifies an Event as a repository mutation (true) or a mere print
(false). -/
def isMutation : Event → Bool
  | Event.printRecovery _ => false
  | Event.printNothingToDo => false
  | Event.printConflictWarning _ => false
  | Event.printFailureRecovery _ => false
  | Event.printSuccessRecovery _ => false
  | _ => true

/-- Outcome of the add-then-force-add attempt for one target path in
splitCurrentCommit lines 441-463: the plain add succeeds, or it fails and
the forced add succeeds, or both fail (the path is skipped). -/
inductive AddOutcome where
  | ok
  | failThenForceOk
  | failThenForceFail
  deriving DecidableEq

/-- Oracle for the external git commands issued by splitCurrentCommit.
The per-path git reset HEAD path outcome is omitted: in the source a
failure there only changes debug logging, the loop continues either way. -/
structure SplitWorld where
  resetOk : Bool
  addAllOk : Bool
  firstCommitOk : Bool
  addOutcome : String → AddOutcome
  secondCommitOk : Bool

/-- The git add events produced for the target paths, with forced-add
fallback (splitCurrentCommit lines 441-463). -/
def addBackEvents (w : SplitWorld) (targetFiles : List String) : List Event :=
  targetFiles.flatMap fun t =>
    match w.addOutcome t with
    | AddOutcome.ok => [Event.gitAdd t]
    | AddOutcome.failThenForceOk => [Event.gitAdd t, Event.gitAddForce t]
    | AddOutcome.failThenForceFail => [Event.gitAdd t, Event.gitAddForce t]

/-- targetFilesAdded of splitCurrentCommit: the number of target paths
whose plain or forced add succeeded. -/
def targetFilesAdded (w : SplitWorld) (targetFiles : List String) : Nat :=
  (targetFiles.filter fun t =>
    w.addOutcome t != AddOutcome.failThenForceFail).length

/-- rebase.go splitCurrentCommit as a trace: reset HEAD^, stage all, unstage
the targets (best effort), commit the retained half with the original
author, re-add the targets with forced fallback, require at least one
staged target, commit the extracted half with the original author. -/
def splitCurrentCommit (w : SplitWorld) (targetFiles : List String)
    (commit : CommitInfo) : List Event × Except String Unit :=
  if !w.resetOk then
    ([], Except.error "failed to reset commit")
  else
    let msgs := GenerateSplitMessages commit.message targetFiles
    if !w.addAllOk then
      ([Event.gitResetMixed], Except.error "failed to stage files")
    else
      let tr1 := Event.gitResetMixed :: Event.gitAddAll ::
        targetFiles.map Event.gitResetPath
      if !w.firstCommitOk then
        (tr1 ++ [Event.gitCommit msgs.1 commit.author],
          Except.error "failed to create first split commit")
      else
        let tr3 := tr1 ++ [Event.gitCommit msgs.1 commit.author] ++
          addBackEvents w targetFiles
        if targetFilesAdded w targetFiles == 0 then
          (tr3, Except.error "no target files were successfully staged for second commit")
        else if !w.secondCommitOk then
          (tr3 ++ [Event.gitCommit msgs.2 commit.author],
            Except.error "failed to create second split commit")
        else
          (tr3 ++ [Event.gitCommit msgs.2 commit.author], Except.ok ())

/-- Oracle for one invocation of splitCommitUsingInteractiveRebase: the
live history log read at session start (the parsed hash and subject pairs
from git log --reverse over fromRev..HEAD), the rebase command exit
status, what checkRebaseConflicts reports in the failure branch (whether
a rebase is in progress, and its message) and after a clean exit (whether
we are paused for editing), the splitCurrentCommit oracle, and the
exit status of git rebase --continue. -/
structure SessionWorld where
  liveLog : List (String × String)
  rebaseCmdOk : Bool
  inProgressAfterFail : Bool
  conflictMsg : String
  inProgressAfterOk : Bool
  split : SplitWorld
  continueOk : Bool

/-- The rebase todo list built by splitCommitUsingInteractiveRebase lines
305-326 from the live log: mark the commit with the captured hash for
editing, pick all others, short hashes truncated to seven characters. -/
def buildSequence (liveLog : List (String × String)) (targetHash : String) :
    List String :=
  liveLog.map fun entry =>
    if entry.1 == targetHash then
      "edit " ++ goTake entry.1 7 ++ " " ++ entry.2
    else
      "pick " ++ goTake entry.1 7 ++ " " ++ entry.2

/-- rebase.go splitCommitUsingInteractiveRebase: build the todo sequence
from the live log, start one interactive rebase over fromRev..HEAD with
that sequence substituted for the editor, handle conflicts or an
unexpected completion, split the paused commit, and continue. -/
def splitCommitUsingInteractiveRebase (sw : SessionWorld) (commit : CommitInfo)
    (fromRev : String) (targetFiles : List String) :
    List Event × Except String Unit :=
  let seq := buildSequence sw.liveLog commit.hash
  let tr0 := [Event.runRebaseSession fromRev seq]
  if !sw.rebaseCmdOk then
    if sw.inProgressAfterFail then
      (tr0, Except.error ("rebase stopped due to conflicts:\n" ++ sw.conflictMsg))
    else
      (tr0, Except.error "failed to start interactive rebase")
  else if sw.inProgressAfterOk then
    match splitCurrentCommit sw.split targetFiles commit with
    | (str, Except.error e) =>
      (tr0 ++ str ++ [Event.rebaseAbort],
        Except.error ("failed to split commit during rebase: " ++ e))
    | (str, Except.ok _) =>
      if sw.continueOk then
        (tr0 ++ str ++ [Event.rebaseContinue], Except.ok ())
      else
        (tr0 ++ str ++ [Event.rebaseContinue],
          Except.error "failed to continue rebase")
  else
    (tr0, Except.error "rebase completed unexpectedly without stopping for editing")

/-- Oracle for performRebase: the captured current branch name, the process
id used in the backup branch name, the exit status of backup branch
creation, and the per-flagged-commit session oracles keyed by the
originally captured commit hash. -/
structure RebaseWorld where
  branchOutput : Except String String
  pid : String
  backupOk : Bool
  sessions : String → SessionWorld

/-- The backwards loop of performRebase lines 278-285: walk the analyzed
commits newest first and run one full interactive-rebase session for each
commit flagged NeedsSplit. The input list is already reversed. -/
def performRebaseLoop (w : RebaseWorld) (fromRev : String)
    (targetFiles : List String) :
    List CommitInfo → List Event × Except String Unit
  | [] => ([], Except.ok ())
  | c :: rest =>
    if c.needsSplit then
      match splitCommitUsingInteractiveRebase (w.sessions c.hash) c fromRev targetFiles with
      | (tr, Except.error e) =>
        (tr, Except.error ("failed to split commit " ++ c.hash ++ ": " ++ e))
      | (tr, Except.ok _) =>
        let r := performRebaseLoop w fromRev targetFiles rest
        (tr ++ r.1, r.2)
    else
      performRebaseLoop w fromRev targetFiles rest

/-- rebase.go performRebase: read the current branch, create the backup
branch named branch-backup-pid, then split each flagged commit newest to
oldest, each via its own interactive rebase session. -/
def performRebase (w : RebaseWorld) (fromRev : String)
    (targetFiles : List String) (commits : List CommitInfo) :
    List Event × Except String Unit :=
  match w.branchOutput with
  | Except.error _ => ([], Except.error "failed to get current branch")
  | Except.ok br =>
    if !w.backupOk then
      ([], Except.error "failed to create backup branch")
    else
      let backupBranch := goTrimSpace br ++ "-backup-" ++ w.pid
      let r := performRebaseLoop w fromRev targetFiles commits.reverse
      (Event.createBackupBranch backupBranch :: r.1, r.2)

/-- Oracle for Extract: the git status --porcelain output, the git
rev-parse HEAD output, the result of AnalyzeRange (a read-only query),
the advisory potential-conflict list, and the performRebase oracle. -/
structure ExtractWorld where
  statusOutput : Except String String
  headOutput : Except String String
  analyzeOutput : Except String (List CommitInfo)
  potentialConflicts : List String
  rebase : RebaseWorld

/-- rebase.go Extract: fail on a dirty working directory before anything
else, capture HEAD and print the recovery command before any mutation,
analyze the range, stop successfully with a notice when no commit needs
splitting, otherwise warn about potential conflicts, run performRebase,
and re-print the recovery command on rebase failure and on success. -/
def Extract (w : ExtractWorld) (targetFiles : List String)
    (fromRev toRev : String) : List Event × Except String Unit :=
  match w.statusOutput with
  | Except.error e =>
    ([], Except.error ("failed to check git status: " ++ e))
  | Except.ok status =>
    if 0 < (goTrimSpace status).length then
      ([], Except.error
        ("working directory is not clean. Please commit or stash changes first:\n" ++ status))
    else
      match w.headOutput with
      | Except.error e =>
        ([], Except.error ("failed to get current HEAD: " ++ e))
      | Except.ok headRaw =>
        let originalHead := goTrimSpace headRaw
        let tr0 := [Event.printRecovery originalHead]
        match w.analyzeOutput with
        | Except.error e =>
          (tr0, Except.error ("failed to analyze commits: " ++ e))
        | Except.ok commits =>
          if !(commits.any fun c => c.needsSplit) then
            (tr0 ++ [Event.printNothingToDo], Except.ok ())
          else
            let tr1 := tr0 ++
              (if 0 < w.potentialConflicts.length then
                [Event.printConflictWarning w.potentialConflicts]
              else [])
            match performRebase w.rebase fromRev targetFiles commits with
            | (rtr, Except.error e) =>
              (tr1 ++ rtr ++ [Event.printFailureRecovery originalHead],
                Except.error ("rebase failed: " ++ e))
            | (rtr, Except.ok _) =>
              (tr1 ++ rtr ++ [Event.printSuccessRecovery originalHead],
                Except.ok ())

/-- The (message, author) payloads of the git commit events in a trace, in
order. -/
def commitEvents : List Event → List (String × String)
  | [] => []
  | Event.gitCommit m a :: rest => (m, a) :: commitEvents rest
  | _ :: rest => commitEvents rest

/-- The (fromRev, sequence) payloads of the interactive rebase session
start events in a trace, in order. -/
def sessionStarts : List Event → List (String × List String)
  | [] => []
  | Event.runRebaseSession f s :: rest => (f, s) :: sessionStarts rest
  | _ :: rest => sessionStarts rest

/-- Counts the re-prints of the recovery command (the terminal success and
terminal failure prints) in a trace. -/
def countReprints (tr : List Event) : Nat :=
  (tr.filter fun e =>
    match e with
    | Event.printFailureRecovery _ => true
    | Event.printSuccessRecovery _ => true
    | _ => false).length

instance : DecidableEq (Except String Unit) := fun a b =>
  match a, b with
  | Except.ok (), Except.ok () => isTrue rfl
  | Except.error x, Except.error y =>
    if h : x = y then isTrue (by rw [h])
    else isFalse (fun hh => h (by cases hh; rfl))
  | Except.ok (), Except.error _ => isFalse (fun hh => Except.noConfusion hh)
  | Except.error _, Except.ok () => isFalse (fun hh => Except.noConfusion hh)

/-- A mixed commit record (one target path, one other path), flagged for
splitting. -/
def commitA : CommitInfo :=
  ⟨"aaaaaaa0001", "msg a", "Alice <alice@example.com>", ["t.txt", "x.go"], true⟩

/-- A second mixed commit record, flagged for splitting. -/
def commitB : CommitInfo :=
  ⟨"bbbbbbb0002", "msg b", "Bob <bob@example.com>", ["t.txt", "y.go"], true⟩

/-- A commit touching only non-target paths, not flagged. -/
def commitClean : CommitInfo :=
  ⟨"ccccccc0003", "msg c", "Carol <carol@example.com>", ["z.go"], false⟩

/-- A SplitWorld in which every git command succeeds. -/
def splitWorldOk : SplitWorld :=
  ⟨true, true, true, fun _ => AddOutcome.ok, true⟩

/-- A SplitWorld in which the plain add of every target path is refused
and the forced add of every target path also fails. -/
def splitWorldAllFail : SplitWorld :=
  ⟨true, true, true, fun _ => AddOutcome.failThenForceFail, true⟩

/-- A SessionWorld describing a session that pauses at the target commit
and splits it successfully. -/
def sessionWorldOk (log : List (String × String)) : SessionWorld :=
  ⟨log, true, false, "", true, splitWorldOk, true⟩

/-- A RebaseWorld for a range holding the two flagged commits, every
session succeeding. -/
def rebaseWorldTwo : RebaseWorld :=
  ⟨Except.ok "main\n", "42", true,
    fun _ => sessionWorldOk [("aaaaaaa0001", "msg a"), ("bbbbbbb0002", "msg b")]⟩

/-- A RebaseWorld for a range holding one flagged commit, the session
succeeding. -/
def rebaseWorldOne : RebaseWorld :=
  ⟨Except.ok "main\n", "42", true,
    fun _ => sessionWorldOk [("aaaaaaa0001", "msg a")]⟩

/-- An ExtractWorld whose working directory is dirty. -/
def extractWorldDirty : ExtractWorld :=
  ⟨Except.ok " M a.txt\n", Except.ok "abc123\n", Except.ok [], [], rebaseWorldOne⟩

/-- An ExtractWorld with a clean working directory whose analyzed range
holds no commit that needs splitting. -/
def extractWorldNoop : ExtractWorld :=
  ⟨Except.ok "", Except.ok "abc123\n", Except.ok [commitClean], [], rebaseWorldOne⟩

/-- An ExtractWorld with a clean working directory, one flagged commit in
the range, and a fully successful rewrite. -/
def extractWorldRun : ExtractWorld :=
  ⟨Except.ok "", Except.ok "abc123\n", Except.ok [commitA], [], rebaseWorldOne⟩

theorem splitFlags_spec (targetFiles fs : List String) :
    splitFlags targetFiles fs =
      (fs.any (isTargetFile targetFiles),
        fs.any fun f => !isTargetFile targetFiles f) := by
  have go : ∀ (l : List String) (a b : Bool),
      l.foldl
        (fun acc file =>
          if isTargetFile targetFiles file then (true, acc.2) else (acc.1, true))
        (a, b) =
      (a || l.any (isTargetFile targetFiles),
        b || l.any fun f => !isTargetFile targetFiles f) := by
    intro l
    induction l with
    | nil => intro a b; simp
    | cons f rest ih =>
      intro a b
      cases h : isTargetFile targetFiles f <;>
        simp [h, ih, Bool.or_assoc]
  simpa [splitFlags] using go fs false false

/-- Claim C1: for every analyzed commit, the derived NeedsSplit flag is
true exactly when the changed-path list holds at least one path matching
the target patterns and at least one path not matching them; hence a
commit whose paths all match, or all fail to match, gets NeedsSplit
false. -/
theorem analyzeCommit_needsSplit_iff (targetFiles : List String)
    (hash rawMsg rawAuthor : String) (files : List String) :
    (analyzeCommit targetFiles hash rawMsg rawAuthor files).needsSplit = true ↔
      (∃ f ∈ files, isTargetFile targetFiles f = true) ∧
      (∃ f ∈ files, isTargetFile targetFiles f = false) := by
  simp [analyzeCommit, splitFlags_spec, List.any_eq_true]

theorem analyzeCommit_needsSplit_iff_witness :
    (analyzeCommit ["t.txt"] "h1" "m" "a" ["t.txt", "x.go"]).needsSplit = true :=
  (analyzeCommit_needsSplit_iff ["t.txt"] "h1" "m" "a" ["t.txt", "x.go"]).mpr
    ⟨⟨"t.txt", by decide, by decide⟩, ⟨"x.go", by decide, by decide⟩⟩

/-- Claim C4: isTargetFile is a total function returning true exactly when
the path equals some pattern, or some pattern ends with the directory
separator and is a prefix of the path; the prefix test is segment-aware
because the compared pattern carries its trailing separator, so the
directory pattern lib/ matches lib/x.go but not libx.go. -/
theorem isTargetFile_iff (targetFiles : List String) (file : String) :
    (isTargetFile targetFiles file = true ↔
      ∃ t ∈ targetFiles, file = t ∨
        (strEndsWith t "/" = true ∧ strStartsWith file t = true)) ∧
    isTargetFile ["lib/"] "lib/x.go" = true ∧
    isTargetFile ["lib/"] "libx.go" = false := by
  refine ⟨?_, by decide, by decide⟩
  simp [isTargetFile, List.any_eq_true]

theorem isTargetFile_iff_witness :
    isTargetFile ["lib/"] "lib/x.go" = true ∧
    isTargetFile ["lib/"] "libx.go" = false :=
  (isTargetFile_iff ["lib/"] "lib/x.go").2

/-- Claim C3: GenerateSplitMessages is a pure function of the original
message and the target list; for a single target path p it returns the
original plus the split notice naming p and the extracted message
prefixed with p, and for more than one target path the generic notice and
the generic target-files prefix; the original message is embedded
verbatim, and determinism is intrinsic since the embedding is a plain
function of its two arguments. -/
theorem generateSplitMessages_spec (original p : String) (ts : List String)
    (h : 2 ≤ ts.length) :
    GenerateSplitMessages original [p] =
      (original ++ "\n\nChanges to " ++ p ++ " split into a separate commit",
        p ++ ": " ++ original) ∧
    GenerateSplitMessages original ts =
      (original ++ "\n\nChanges to target files split into a separate commit",
        "target files: " ++ original) := by
  constructor
  · simp [GenerateSplitMessages]
  · have hne : ts.length ≠ 1 := by omega
    simp [GenerateSplitMessages, hne]

theorem generateSplitMessages_spec_witness :
    GenerateSplitMessages "Fix bug" ["target.txt"] =
      ("Fix bug" ++ "\n\nChanges to " ++ "target.txt" ++
        " split into a separate commit", "target.txt" ++ ": " ++ "Fix bug") ∧
    GenerateSplitMessages "Fix bug" ["a.tsx", "b.tsx"] =
      ("Fix bug" ++ "\n\nChanges to target files split into a separate commit",
        "target files: " ++ "Fix bug") :=
  generateSplitMessages_spec "Fix bug" "target.txt" ["a.tsx", "b.tsx"] (by decide)

/-- Claim C10: for an empty target list, GenerateSplitMessages takes the
multiple-target branch and returns the generic notice and the generic
target-files prefix rather than failing or returning the original
unchanged. -/
theorem generateSplitMessages_empty (original : String) :
    GenerateSplitMessages original [] =
      (original ++ "\n\nChanges to target files split into a separate commit",
        "target files: " ++ original) := rfl

theorem commitEvents_append (a b : List Event) :
    commitEvents (a ++ b) = commitEvents a ++ commitEvents b := by
  induction a with
  | nil => rfl
  | cons e rest ih => cases e <;> simp [commitEvents, ih]

theorem commitEvents_map_resetPath (l : List String) :
    commitEvents (l.map Event.gitResetPath) = [] := by
  induction l with
  | nil => rfl
  | cons t rest ih => simp [commitEvents, ih]

theorem commitEvents_addBack (w : SplitWorld) (ts : List String) :
    commitEvents (addBackEvents w ts) = [] := by
  induction ts with
  | nil => rfl
  | cons t rest ih =>
    simp only [addBackEvents] at ih ⊢
    cases h : w.addOutcome t <;>
      simp [h, commitEvents_append, commitEvents, ih]

/-- Claim C5: every commit command issued by splitCurrentCommit carries
the original author identity of the commit being split, and a successful
split issues exactly two commit commands, the retained message then the
extracted message, both with the original author. The embedded commit
command carries no committer field, mirroring the source, which passes
only the author flag and leaves the committer to the environment. -/
theorem splitCurrentCommit_authors (w : SplitWorld) (ts : List String)
    (c : CommitInfo) :
    (∀ p ∈ commitEvents (splitCurrentCommit w ts c).1, p.2 = c.author) ∧
    ((splitCurrentCommit w ts c).2 = Except.ok () →
      commitEvents (splitCurrentCommit w ts c).1 =
        [((GenerateSplitMessages c.message ts).1, c.author),
         ((GenerateSplitMessages c.message ts).2, c.author)]) := by
  unfold splitCurrentCommit
  by_cases h1 : w.resetOk = true
  case neg =>
    simp [h1, commitEvents]
  case pos =>
  by_cases h2 : w.addAllOk = true
  case neg =>
    simp [h1, h2, commitEvents]
  case pos =>
  by_cases h3 : w.firstCommitOk = true
  case neg =>
    simp [h1, h2, h3, commitEvents_append, commitEvents,
      commitEvents_map_resetPath]
  case pos =>
  by_cases h4 : targetFilesAdded w ts = 0
  case pos =>
    simp [h1, h2, h3, h4, commitEvents_append, commitEvents,
      commitEvents_map_resetPath, commitEvents_addBack]
  case neg =>
  by_cases h5 : w.secondCommitOk = true
  case neg =>
    simp [h1, h2, h3, h4, h5, commitEvents_append, commitEvents,
      commitEvents_map_resetPath, commitEvents_addBack]
  case pos =>
    simp [h1, h2, h3, h4, h5, commitEvents_append, commitEvents,
      commitEvents_map_resetPath, commitEvents_addBack]

theorem splitCurrentCommit_authors_witness :
    commitEvents (splitCurrentCommit splitWorldOk ["t.txt"] commitA).1 =
      [((GenerateSplitMessages commitA.message ["t.txt"]).1, commitA.author),
       ((GenerateSplitMessages commitA.message ["t.txt"]).2, commitA.author)] :=
  (splitCurrentCommit_authors splitWorldOk ["t.txt"] commitA).2 rfl

theorem mem_addBack_force (w : SplitWorld) (t : String) (ts : List String) :
    Event.gitAddForce t ∈ addBackEvents w ts ↔
      t ∈ ts ∧ w.addOutcome t ≠ AddOutcome.ok := by
  induction ts with
  | nil => simp [addBackEvents]
  | cons u rest ih =>
    simp only [addBackEvents, List.flatMap_cons, List.mem_append] at ih ⊢
    constructor
    · intro h
      rcases h with h | h
      · cases hu : w.addOutcome u <;> rw [hu] at h <;> simp at h <;>
          rcases h with ⟨rfl⟩ <;> exact ⟨List.mem_cons_self _ _, by rw [hu]; simp⟩
      · rcases ih.mp h with ⟨hm, ho⟩
        exact ⟨List.mem_cons_of_mem _ hm, ho⟩
    · rintro ⟨hm, ho⟩
      rcases List.mem_cons.mp hm with rfl | hm
      · left
        cases hu : w.addOutcome t
        · rw [hu] at ho; exact absurd rfl ho
        · simp
        · simp
      · right
        exact ih.mpr ⟨hm, ho⟩

/-- Claim C8: during a split, once the retained half has been committed,
the re-staging of each target path falls back to a forced add exactly when
the plain add is refused (a gitAddForce event appears for a target path
exactly when its plain add did not succeed), a path whose forced add also
fails is skipped rather than fatal, and the split returns the
split-integrity error exactly when zero target paths were successfully
staged. -/
theorem splitCurrentCommit_snd (w : SplitWorld) (ts : List String)
    (c : CommitInfo) (h1 : w.resetOk = true) (h2 : w.addAllOk = true)
    (h3 : w.firstCommitOk = true) :
    (splitCurrentCommit w ts c).2 =
      (if targetFilesAdded w ts = 0 then
        Except.error "no target files were successfully staged for second commit"
      else if w.secondCommitOk then Except.ok ()
      else Except.error "failed to create second split commit") := by
  unfold splitCurrentCommit
  by_cases h4 : targetFilesAdded w ts = 0
  · have h4b : (targetFilesAdded w ts == 0) = true := by simpa using h4
    simp [h1, h2, h3, h4b, h4]
  · have h4b : (targetFilesAdded w ts == 0) = false := by simpa using h4
    cases h5 : w.secondCommitOk <;> simp [h1, h2, h3, h4b, h4, h5]

theorem splitCurrentCommit_fst (w : SplitWorld) (ts : List String)
    (c : CommitInfo) (h1 : w.resetOk = true) (h2 : w.addAllOk = true)
    (h3 : w.firstCommitOk = true) :
    (splitCurrentCommit w ts c).1 =
      (Event.gitResetMixed :: Event.gitAddAll :: ts.map Event.gitResetPath) ++
      [Event.gitCommit (GenerateSplitMessages c.message ts).1 c.author] ++
      addBackEvents w ts ++
      (if targetFilesAdded w ts = 0 then []
       else [Event.gitCommit (GenerateSplitMessages c.message ts).2 c.author]) := by
  unfold splitCurrentCommit
  by_cases h4 : targetFilesAdded w ts = 0
  · have h4b : (targetFilesAdded w ts == 0) = true := by simpa using h4
    simp [h1, h2, h3, h4b, h4]
  · have h4b : (targetFilesAdded w ts == 0) = false := by simpa using h4
    cases h5 : w.secondCommitOk <;> simp [h1, h2, h3, h4b, h4, h5]

theorem splitCurrentCommit_staging (w : SplitWorld) (ts : List String)
    (c : CommitInfo) (h1 : w.resetOk = true) (h2 : w.addAllOk = true)
    (h3 : w.firstCommitOk = true) :
    ((splitCurrentCommit w ts c).2 =
        Except.error "no target files were successfully staged for second commit" ↔
      targetFilesAdded w ts = 0) ∧
    ∀ t ∈ ts, (Event.gitAddForce t ∈ (splitCurrentCommit w ts c).1 ↔
      w.addOutcome t ≠ AddOutcome.ok) := by
  constructor
  · rw [splitCurrentCommit_snd w ts c h1 h2 h3]
    by_cases h4 : targetFilesAdded w ts = 0
    · simp [h4]
    · rw [if_neg h4]
      constructor
      · intro h
        exfalso
        cases h5 : w.secondCommitOk <;> rw [h5] at h <;> simp at h
      · intro h; exact absurd h h4
  · intro t ht
    rw [splitCurrentCommit_fst w ts c h1 h2 h3]
    by_cases h4 : targetFilesAdded w ts = 0 <;>
      simp [h4, List.mem_append, mem_addBack_force, List.mem_map, ht]

theorem splitCurrentCommit_staging_witness :
    (splitCurrentCommit splitWorldAllFail ["u.txt"] commitA).2 =
      Except.error "no target files were successfully staged for second commit" ∧
    Event.gitAddForce "u.txt" ∈
      (splitCurrentCommit splitWorldAllFail ["u.txt"] commitA).1 :=
  ⟨(splitCurrentCommit_staging splitWorldAllFail ["u.txt"] commitA
      rfl rfl rfl).1.mpr rfl,
   ((splitCurrentCommit_staging splitWorldAllFail ["u.txt"] commitA
      rfl rfl rfl).2 "u.txt" (by decide)).mpr (by decide)⟩

/-- Claim C6: when the working directory is not clean, Extract fails at
once with the precondition error embedding the porcelain status output,
which names the dirty paths, and its trace is empty: no recovery print,
no backup branch, no rebase session, no mutation of any kind. -/
theorem extract_dirty_precondition (w : ExtractWorld) (ts : List String)
    (fromRev toRev status : String)
    (h1 : w.statusOutput = Except.ok status)
    (h2 : 0 < (goTrimSpace status).length) :
    Extract w ts fromRev toRev =
      ([], Except.error
        ("working directory is not clean. Please commit or stash changes first:\n" ++
          status)) := by
  unfold Extract
  rw [h1]
  simp [h2]

theorem extract_dirty_precondition_witness :
    Extract extractWorldDirty ["t.txt"] "base" "HEAD" =
      ([], Except.error
        ("working directory is not clean. Please commit or stash changes first:\n" ++
          " M a.txt\n")) :=
  extract_dirty_precondition extractWorldDirty ["t.txt"] "base" "HEAD"
    " M a.txt\n" rfl (by decide)

/-- Claim C9: when no analyzed commit needs splitting, Extract prints the
recovery command and then the explicit nothing-to-do notice, performs no
mutation (its trace holds no backup-branch creation, no rebase session,
no git command at all), and returns successfully. -/
theorem extract_nothing_to_do (w : ExtractWorld) (ts : List String)
    (fromRev toRev status headRaw : String) (commits : List CommitInfo)
    (h1 : w.statusOutput = Except.ok status)
    (h2 : (goTrimSpace status).length = 0)
    (h3 : w.headOutput = Except.ok headRaw)
    (h4 : w.analyzeOutput = Except.ok commits)
    (h5 : (commits.any fun c => c.needsSplit) = false) :
    Extract w ts fromRev toRev =
      ([Event.printRecovery (goTrimSpace headRaw), Event.printNothingToDo],
        Except.ok ()) ∧
    (Extract w ts fromRev toRev).1.all (fun e => !isMutation e) = true := by
  have hmain : Extract w ts fromRev toRev =
      ([Event.printRecovery (goTrimSpace headRaw), Event.printNothingToDo],
        Except.ok ()) := by
    have h2n : ¬ 0 < (goTrimSpace status).length := by omega
    simp only [Extract, h1, h3, h4]
    rw [if_neg h2n]
    simp [h5]
  exact ⟨hmain, by rw [hmain]; rfl⟩

theorem extract_nothing_to_do_witness :
    Extract extractWorldNoop ["t.txt"] "base" "HEAD" =
      ([Event.printRecovery (goTrimSpace "abc123\n"), Event.printNothingToDo],
        Except.ok ()) ∧
    (Extract extractWorldNoop ["t.txt"] "base" "HEAD").1.all
      (fun e => !isMutation e) = true :=
  extract_nothing_to_do extractWorldNoop ["t.txt"] "base" "HEAD"
    "" "abc123\n" [commitClean] rfl rfl rfl rfl rfl

theorem getLast?_snoc {α : Type} (l : List α) (a : α) :
    (l ++ [a]).getLast? = some a :=
  (List.getLast?_append_cons l a []).trans rfl

/-- Claim C7, amended: the recovery command with the pre-mutation tip
identity is the first thing in the trace, hence printed before any
mutation; on runs that attempt the rewrite it is re-printed as the final
trace entry on terminal success and on terminal rebase failure (the
failure result additionally carries the proximate error). Runs that end
earlier, such as the nothing-to-do path, do not re-print it. -/
theorem extract_recovery_prints (w : ExtractWorld) (ts : List String)
    (fromRev toRev status headRaw : String) (commits : List CommitInfo)
    (h1 : w.statusOutput = Except.ok status)
    (h2 : (goTrimSpace status).length = 0)
    (h3 : w.headOutput = Except.ok headRaw)
    (h4 : w.analyzeOutput = Except.ok commits)
    (h5 : (commits.any fun c => c.needsSplit) = true) :
    (Extract w ts fromRev toRev).1.head? =
      some (Event.printRecovery (goTrimSpace headRaw)) ∧
    ((Extract w ts fromRev toRev).2 = Except.ok () →
      (Extract w ts fromRev toRev).1.getLast? =
        some (Event.printSuccessRecovery (goTrimSpace headRaw))) ∧
    (∀ e, (Extract w ts fromRev toRev).2 = Except.error e →
      (Extract w ts fromRev toRev).1.getLast? =
        some (Event.printFailureRecovery (goTrimSpace headRaw))) := by
  have h2n : ¬ 0 < (goTrimSpace status).length := by omega
  rcases hpr : performRebase w.rebase fromRev ts commits with ⟨rtr, res⟩
  cases res with
  | error e0 =>
    have hbody : Extract w ts fromRev toRev =
        (([Event.printRecovery (goTrimSpace headRaw)] ++
          (if 0 < w.potentialConflicts.length then
            [Event.printConflictWarning w.potentialConflicts] else []) ++
          rtr ++ [Event.printFailureRecovery (goTrimSpace headRaw)]),
         Except.error ("rebase failed: " ++ e0)) := by
      simp only [Extract, h1, h3, h4]
      rw [if_neg h2n]
      simp [h5, hpr]
    refine ⟨?_, ?_, ?_⟩
    · rw [hbody]; rfl
    · intro h; rw [hbody] at h; simp at h
    · intro e _
      rw [hbody]
      exact getLast?_snoc _ _
  | ok u =>
    cases u
    have hbody : Extract w ts fromRev toRev =
        (([Event.printRecovery (goTrimSpace headRaw)] ++
          (if 0 < w.potentialConflicts.length then
            [Event.printConflictWarning w.potentialConflicts] else []) ++
          rtr ++ [Event.printSuccessRecovery (goTrimSpace headRaw)]),
         Except.ok ()) := by
      simp only [Extract, h1, h3, h4]
      rw [if_neg h2n]
      simp [h5, hpr]
    refine ⟨?_, ?_, ?_⟩
    · rw [hbody]; rfl
    · intro _
      rw [hbody]
      exact getLast?_snoc _ _
    · intro e he; rw [hbody] at he; simp at he

theorem extract_recovery_prints_witness :
    (Extract extractWorldRun ["t.txt"] "base" "HEAD").1.head? =
      some (Event.printRecovery (goTrimSpace "abc123\n")) ∧
    (Extract extractWorldRun ["t.txt"] "base" "HEAD").1.getLast? =
      some (Event.printSuccessRecovery (goTrimSpace "abc123\n")) :=
  ⟨(extract_recovery_prints extractWorldRun ["t.txt"] "base" "HEAD" ""
      "abc123\n" [commitA] rfl rfl rfl rfl rfl).1,
   (extract_recovery_prints extractWorldRun ["t.txt"] "base" "HEAD" ""
      "abc123\n" [commitA] rfl rfl rfl rfl rfl).2.1 rfl⟩

/-- Claim C7 counterexample: a run whose analyzed range needs no split is
a terminal success of the run, yet its trace holds the initial recovery
print and the nothing-to-do notice only: the recovery command is not
re-printed at this terminal outcome, refuting re-printing at every
terminal outcome. -/
theorem extract_noop_no_reprint :
    Extract extractWorldNoop ["t.txt"] "base" "HEAD" =
      ([Event.printRecovery "abc123", Event.printNothingToDo], Except.ok ()) ∧
    countReprints (Extract extractWorldNoop ["t.txt"] "base" "HEAD").1 = 0 :=
  ⟨rfl, rfl⟩

theorem sessionStarts_append (a b : List Event) :
    sessionStarts (a ++ b) = sessionStarts a ++ sessionStarts b := by
  induction a with
  | nil => rfl
  | cons e rest ih => cases e <;> simp [sessionStarts, ih]

theorem sessionStarts_map_resetPath (l : List String) :
    sessionStarts (l.map Event.gitResetPath) = [] := by
  induction l with
  | nil => rfl
  | cons t rest ih => simp [sessionStarts, ih]

theorem sessionStarts_addBack (w : SplitWorld) (ts : List String) :
    sessionStarts (addBackEvents w ts) = [] := by
  induction ts with
  | nil => rfl
  | cons t rest ih =>
    simp only [addBackEvents] at ih ⊢
    cases h : w.addOutcome t <;>
      simp [h, sessionStarts_append, sessionStarts, ih]

theorem sessionStarts_splitCurrentCommit (w : SplitWorld) (ts : List String)
    (c : CommitInfo) :
    sessionStarts (splitCurrentCommit w ts c).1 = [] := by
  unfold splitCurrentCommit
  by_cases h1 : w.resetOk = true
  case neg => simp [h1, sessionStarts]
  case pos =>
  by_cases h2 : w.addAllOk = true
  case neg => simp [h1, h2, sessionStarts]
  case pos =>
  by_cases h3 : w.firstCommitOk = true
  case neg =>
    simp [h1, h2, h3, sessionStarts_append, sessionStarts,
      sessionStarts_map_resetPath]
  case pos =>
  by_cases h4 : targetFilesAdded w ts = 0
  case pos =>
    have h4b : (targetFilesAdded w ts == 0) = true := by simpa using h4
    simp [h1, h2, h3, h4b, sessionStarts_append, sessionStarts,
      sessionStarts_map_resetPath, sessionStarts_addBack]
  case neg =>
    have h4b : (targetFilesAdded w ts == 0) = false := by simpa using h4
    cases h5 : w.secondCommitOk <;>
      simp [h1, h2, h3, h4b, h5, sessionStarts_append, sessionStarts,
        sessionStarts_map_resetPath, sessionStarts_addBack]

theorem sessionStarts_session (sw : SessionWorld) (c : CommitInfo)
    (fromRev : String) (ts : List String) :
    sessionStarts (splitCommitUsingInteractiveRebase sw c fromRev ts).1 =
      [(fromRev, buildSequence sw.liveLog c.hash)] := by
  unfold splitCommitUsingInteractiveRebase
  by_cases h1 : sw.rebaseCmdOk = true
  case neg =>
    cases h2 : sw.inProgressAfterFail <;> simp [h1, h2, sessionStarts]
  case pos =>
  by_cases h3 : sw.inProgressAfterOk = true
  case neg => simp [h1, h3, sessionStarts]
  case pos =>
  rcases hsp : splitCurrentCommit sw.split ts c with ⟨str, res⟩
  have hstr : sessionStarts str = [] := by
    have := sessionStarts_splitCurrentCommit sw.split ts c
    rw [hsp] at this
    exact this
  cases res with
  | error e =>
    simp [h1, h3, hsp, sessionStarts_append, sessionStarts, hstr]
  | ok u =>
    cases h4 : sw.continueOk <;>
      simp [h1, h3, hsp, h4, sessionStarts_append, sessionStarts, hstr]

theorem performRebaseLoop_sessions (w : RebaseWorld) (fromRev : String)
    (ts : List String) (l : List CommitInfo)
    (hok : ∀ c ∈ l, c.needsSplit = true →
      (splitCommitUsingInteractiveRebase (w.sessions c.hash) c fromRev ts).2 =
        Except.ok ()) :
    sessionStarts (performRebaseLoop w fromRev ts l).1 =
      (l.filter fun c => c.needsSplit).map
        (fun c => (fromRev, buildSequence (w.sessions c.hash).liveLog c.hash)) := by
  induction l with
  | nil => rfl
  | cons c rest ih =>
    have hrest : ∀ c2 ∈ rest, c2.needsSplit = true →
        (splitCommitUsingInteractiveRebase (w.sessions c2.hash) c2 fromRev ts).2 =
          Except.ok () :=
      fun c2 hm => hok c2 (List.mem_cons_of_mem _ hm)
    by_cases hn : c.needsSplit = true
    · have hres := hok c (List.mem_cons_self c rest) hn
      rcases hsp : splitCommitUsingInteractiveRebase (w.sessions c.hash) c fromRev ts
        with ⟨tr, res⟩
      rw [hsp] at hres
      simp only at hres
      subst hres
      have htr : sessionStarts tr = [(fromRev, buildSequence (w.sessions c.hash).liveLog c.hash)] := by
        have := sessionStarts_session (w.sessions c.hash) c fromRev ts
        rw [hsp] at this
        exact this
      unfold performRebaseLoop
      rw [if_pos hn, hsp]
      simp [sessionStarts_append, htr, List.filter_cons, hn, ih hrest]
    · unfold performRebaseLoop
      rw [if_neg hn]
      simp [List.filter_cons, hn, ih hrest]

/-- Claim C2, amended: the rewrite is not one single session; it runs one
full-range interactive rebase session per flagged change-set, iterating
over the analyzed commits newest to oldest, and each session rebuilds its
instruction sequence from the live history read at that session's start
while marking the originally captured commit identity for editing. When
every session succeeds, the session-start events are exactly one per
flagged commit, in reverse analysis order, each carrying the sequence
derived from that session's live log. -/
theorem performRebase_sessions (w : RebaseWorld) (fromRev : String)
    (ts : List String) (commits : List CommitInfo) (br : String)
    (hbr : w.branchOutput = Except.ok br) (hbk : w.backupOk = true)
    (hok : ∀ c ∈ commits, c.needsSplit = true →
      (splitCommitUsingInteractiveRebase (w.sessions c.hash) c fromRev ts).2 =
        Except.ok ()) :
    sessionStarts (performRebase w fromRev ts commits).1 =
      (commits.reverse.filter fun c => c.needsSplit).map
        (fun c => (fromRev, buildSequence (w.sessions c.hash).liveLog c.hash)) := by
  have hokr : ∀ c ∈ commits.reverse, c.needsSplit = true →
      (splitCommitUsingInteractiveRebase (w.sessions c.hash) c fromRev ts).2 =
        Except.ok () :=
    fun c hm => hok c (List.mem_reverse.mp hm)
  unfold performRebase
  rw [hbr]
  simp only [hbk, Bool.not_true, Bool.false_eq_true, if_false]
  rw [show sessionStarts (Event.createBackupBranch (goTrimSpace br ++ "-backup-" ++ w.pid) ::
    (performRebaseLoop w fromRev ts commits.reverse).1) =
      sessionStarts (performRebaseLoop w fromRev ts commits.reverse).1 from rfl]
  exact performRebaseLoop_sessions w fromRev ts commits.reverse hokr

theorem performRebase_sessions_witness :
    sessionStarts (performRebase rebaseWorldTwo "base" ["t.txt"]
        [commitA, commitB]).1 =
      (([commitA, commitB].reverse.filter fun c => c.needsSplit).map
        (fun c => ("base",
          buildSequence (rebaseWorldTwo.sessions c.hash).liveLog c.hash))) :=
  performRebase_sessions rebaseWorldTwo "base" ["t.txt"] [commitA, commitB]
    "main\n" rfl rfl (by decide)

/-- Claim C2 counterexample: with two flagged change-sets in the range the
code starts two interactive rebase sessions, not one: the rewrite is not
performed as one single supervised session over the range, and the
per-session instruction sequences are rebuilt from live history rather
than taken from one pre-built plan. -/
theorem performRebase_two_sessions_not_one :
    (sessionStarts (performRebase rebaseWorldTwo "base" ["t.txt"]
        [commitA, commitB]).1).length = 2 ∧
    (sessionStarts (performRebase rebaseWorldTwo "base" ["t.txt"]
        [commitA, commitB]).1).length ≠ 1 ∧
    (performRebase rebaseWorldTwo "base" ["t.txt"] [commitA, commitB]).2 =
      Except.ok () :=
  ⟨rfl, by decide, rfl⟩

end GitRebaseExtractFile
